import Mathlib

/-!
Verification of the web-postman core services against their specification.

The development shallowly embeds the TypeScript services of the repository:
`HttpService` (request executor and variable interpolator), `CodeGenService`
(curl / fetch / python snippet generators), `PostmanService` (Postman
collection import/export), `ExportImportService.generateCurlImport`
(curl-text import) and the environment operations of the application
context.  JavaScript runtime values that flow through the converters are
modelled by the inductive type `JVal` (parsed JSON); platform collaborators
(`fetch`, `JSON.parse`, `localStorage`, wall-clock time, id generation) are
modelled as explicit parameters.  Thrown exceptions are modelled with
`Except String`.
-/

/-- JavaScript values as produced by `JSON.parse`: null, strings, integers
(float subtleties are not exercised by any claim), booleans, arrays and
plain objects with ordered string keys.  An absent property is represented
by `Option.none` at use sites, distinct from `JVal.null`. -/
inductive JVal where
  | null : JVal
  | str (s : String) : JVal
  | num (n : Int) : JVal
  | bool (b : Bool) : JVal
  | arr (elems : List JVal) : JVal
  | obj (fields : List (String × JVal)) : JVal

/-- Property access `v[k]` on a JavaScript value: objects yield the first
binding of the key, every other value has no string-keyed own properties
(`undefined`, i.e. `none`). -/
def JVal.get : JVal → String → Option JVal
  | .obj fields, k => (fields.find? (fun p => p.1 == k)).map (fun p => p.2)
  | _, _ => none

/-- JavaScript truthiness of a value: `null`, the empty string, `0` and
`false` are falsy; arrays and objects are always truthy. -/
def JVal.truthy : JVal → Bool
  | .null => false
  | .str s => !s.isEmpty
  | .num n => n != 0
  | .bool b => b
  | .arr _ => true
  | .obj _ => true

/-- Truthiness of a possibly-absent property (`undefined` is falsy). -/
def truthyOpt : Option JVal → Bool
  | some v => v.truthy
  | none => false

/-- Optional chaining `v?.k`: `undefined` and `null` short-circuit to
`undefined`; other values do ordinary property access. -/
def optChainGet : Option JVal → String → Option JVal
  | none, _ => none
  | some .null, _ => none
  | some v, k => v.get k

mutual

/-- JavaScript string coercion `String(v)` / `v.toString()`: objects print
as `[object Object]`, arrays join their elements with commas (with `null`
printing as the empty string inside an array), mirroring
`Array.prototype.toString`. -/
def JVal.jsToString : JVal → String
  | .null => "null"
  | .str s => s
  | .num n => toString n
  | .bool b => cond b "true" "false"
  | .arr elems => String.intercalate "," (jsToStringElems elems)
  | .obj _ => "[object Object]"

/-- Elementwise coercion used by `Array.prototype.toString`. -/
def jsToStringElems : List JVal → List String
  | [] => []
  | .null :: rest => "" :: jsToStringElems rest
  | v :: rest => JVal.jsToString v :: jsToStringElems rest

end

/-- JSON string escaping for `JSON.stringify` (the escapes exercised by the
claims: quote, backslash, newline; other control characters do not occur in
any input considered). -/
def jsonQuote (s : String) : String :=
  let dquote := String.mk [Char.ofNat 34]
  let esc := s.data.foldr
    (fun c acc =>
      if c == Char.ofNat 34 then '\\' :: Char.ofNat 34 :: acc
      else if c == '\\' then '\\' :: '\\' :: acc
      else if c == '\n' then '\\' :: 'n' :: acc
      else c :: acc) []
  dquote ++ String.mk esc ++ dquote

mutual

/-- Compact `JSON.stringify` of a value (the pretty-printing whitespace of
`JSON.stringify(v, null, 2)` is elided; no claim constrains it). -/
def JVal.stringify : JVal → String
  | .null => "null"
  | .str s => jsonQuote s
  | .num n => toString n
  | .bool b => cond b "true" "false"
  | .arr elems => "[" ++ String.intercalate "," (stringifyElems elems) ++ "]"
  | .obj fields => "\x7b" ++ String.intercalate "," (stringifyFields fields) ++ "\x7d"

/-- Stringification of array elements. -/
def stringifyElems : List JVal → List String
  | [] => []
  | v :: rest => JVal.stringify v :: stringifyElems rest

/-- Stringification of object fields as `"key":value`. -/
def stringifyFields : List (String × JVal) → List String
  | [] => []
  | (k, v) :: rest => (jsonQuote k ++ ":" ++ JVal.stringify v) :: stringifyFields rest

end

/-- Word character of the JavaScript regex class `\w`: ASCII letters,
digits and underscore. -/
def isWordChar (c : Char) : Bool :=
  c.isAlpha || c.isDigit || c == '_'

/-- Attempt of the regex `\{\{(\w+)\}\}` at the start of a character list:
two opening braces, a maximal nonempty run of word characters, two closing
braces.  Returns the captured name and the remaining input. -/
def matchVar : List Char → Option (List Char × List Char)
  | c1 :: c2 :: rest =>
    if c1 = '{' ∧ c2 = '{' then
      let name := rest.takeWhile isWordChar
      match rest.dropWhile isWordChar with
      | d1 :: d2 :: rest2 =>
        if d1 = '}' ∧ d2 = '}' then
          if name.isEmpty then none else some (name, rest2)
        else none
      | _ => none
    else none
  | _ => none

/-- Property names matching `\w+` that a plain object literal inherits
from `Object.prototype`: reading them with `variables[name]` when no own
binding exists yields the inherited built-in — a truthy function, or
`Object.prototype` itself for `__proto__` — rather than `undefined`. -/
def protoKeys : List String :=
  ["constructor", "hasOwnProperty", "isPrototypeOf", "propertyIsEnumerable",
   "toLocaleString", "toString", "valueOf", "__defineGetter__",
   "__defineSetter__", "__lookupGetter__", "__lookupSetter__", "__proto__"]

/-- First binding of a key among the OWN properties of a JavaScript object
modelled as an association list.  This is the own-property part of the
read `variables[name]`: when no own binding exists the program's read
further resolves the members inherited from `Object.prototype` (the names
in `protoKeys`), substituting the inherited built-in's engine-specific
string coercion — that case lies outside this model, and the statements
about names absent from the mapping exclude those names by hypothesis. -/
def lookupVar (vars : List (String × String)) (k : String) : Option String :=
  (vars.find? (fun p => p.1 == k)).map (fun p => p.2)

/-- Replacement computed by the callback
`(match, name) => variables[name] || match` of
`HttpService.interpolateVariables`: the mapped value when it is truthy
(a nonempty string), otherwise the matched text `\x7b\x7bname\x7d\x7d`
itself.  Built on the own-property `lookupVar`: for a name that is both
unbound and in `protoKeys` the program substitutes the coerced inherited
member instead of keeping the occurrence, a case the occurrence-level
statements exclude by hypothesis. -/
def substFor (vars : List (String × String)) (name : List Char) : List Char :=
  match lookupVar vars (String.mk name) with
  | some v => if v.isEmpty then '{' :: '{' :: (name ++ '}' :: '}' :: []) else v.data
  | none => '{' :: '{' :: (name ++ '}' :: '}' :: [])

theorem matchVar_shape {l name rest : List Char} (h : matchVar l = some (name, rest)) :
    l = '{' :: '{' :: (name ++ '}' :: '}' :: rest) ∧ name ≠ [] ∧ name.all isWordChar := by
  rcases l with _ | ⟨c1, l⟩
  · simp [matchVar] at h
  rcases l with _ | ⟨c2, r⟩
  · simp [matchVar] at h
  simp only [matchVar] at h
  by_cases hb : c1 = '{' ∧ c2 = '{'
  · rw [if_pos hb] at h
    rcases hd : r.dropWhile isWordChar with _ | ⟨d1, rest'⟩ <;> rw [hd] at h
    · simp at h
    rcases rest' with _ | ⟨d2, rest2⟩
    · simp at h
    dsimp only at h
    by_cases hc : d1 = '}' ∧ d2 = '}'
    · rw [if_pos hc] at h
      by_cases he : (r.takeWhile isWordChar).isEmpty
      · rw [if_pos he] at h; simp at h
      · rw [if_neg he] at h
        injection h with h'
        injection h' with h1 h2
        subst h1; subst h2
        obtain ⟨hb1, hb2⟩ := hb
        obtain ⟨hc1, hc2⟩ := hc
        subst hb1; subst hb2; subst hc1; subst hc2
        refine ⟨?_, by simpa [List.isEmpty_iff] using he, ?_⟩
        · have hsplit := List.takeWhile_append_dropWhile (p := isWordChar) (l := r)
          rw [hd] at hsplit
          rw [hsplit]
        · simpa [List.all_eq_true] using fun c hc => List.mem_takeWhile_imp hc
    · rw [if_neg hc] at h; simp at h
  · rw [if_neg hb] at h; simp at h

theorem matchVar_rest_lt {l name rest : List Char} (h : matchVar l = some (name, rest)) :
    rest.length < l.length := by
  rcases matchVar_shape h with ⟨hl, hne, _⟩
  subst hl
  simp [List.length_append]
  omega

/-- Scanner of `String.prototype.replace` with the global regex
`/\{\{(\w+)\}\}/g`: the input is scanned left to right, each match is
replaced using `substFor`, scanning resumes after the matched portion of
the original input, and replacement text is never re-scanned. -/
def interpAux (vars : List (String × String)) : List Char → List Char
  | [] => []
  | c :: cs =>
    match h : matchVar (c :: cs) with
    | some (name, rest) => substFor vars name ++ interpAux vars rest
    | none => c :: interpAux vars cs
termination_by l => l.length
decreasing_by
  · exact matchVar_rest_lt h
  · simp

/-- Embedding of `HttpService.interpolateVariables`:
`text.replace(/\{\{(\w+)\}\}/g, (match, name) => variables[name] || match)`. -/
def interpolateVariables (text : String) (vars : List (String × String)) : String :=
  String.mk (interpAux vars text.data)

/-- Fuel-indexed structural evaluator for the scanner, agreeing with
`interpAux` whenever the fuel covers the input length; used to evaluate
concrete instances. -/
def interpFuel (vars : List (String × String)) : Nat → List Char → List Char
  | _, [] => []
  | 0, l => l
  | fuel + 1, c :: cs =>
    match matchVar (c :: cs) with
    | some (name, rest) => substFor vars name ++ interpFuel vars fuel rest
    | none => c :: interpFuel vars fuel cs

/-- Value substituted for an occurrence `\x7b\x7bname\x7d\x7d`, at the level
of strings: the mapped value when the name is bound to a nonempty string,
the occurrence itself (braces included) otherwise. -/
def substValue (vars : List (String × String)) (name : String) : String :=
  match lookupVar vars name with
  | some v => if v.isEmpty then "\x7b\x7b" ++ name ++ "\x7d\x7d" else v
  | none => "\x7b\x7b" ++ name ++ "\x7d\x7d"

/-- Environment record persisted in `db.environments` (the `Date`-valued
`createdAt`/`updatedAt` fields are elided — no claim constrains them — and
the source field `variables` is named `vars` here since `variables` is a
reserved word in this development's language). -/
structure Environment where
  id : String
  name : String
  vars : List (String × String)
  isActive : Bool
deriving DecidableEq

/-- Update object passed to `updateEnvironment` (TypeScript `Partial` over
the patchable fields; the primary key is not patched). -/
structure EnvPatch where
  name : Option String
  vars : Option (List (String × String))
  isActive : Option Bool
deriving DecidableEq

/-- Object spread `(...env, ...updates)`: fields present in the patch
override the record. -/
def applyPatch (e : Environment) (p : EnvPatch) : Environment :=
  { id := e.id
    name := p.name.getD e.name
    vars := p.vars.getD e.vars
    isActive := p.isActive.getD e.isActive }

/-- Embedding of `createEnvironment` of the application context: a fresh
record with `isActive: false` is added to the store (the id produced by
`Date.now().toString()` is the `newId` parameter; a duplicate primary key
makes the store reject the add, the error is caught, and the state is
unchanged). -/
def createEnvironment (newId : String) (name : String)
    (vars : List (String × String)) (s : List Environment) : List Environment :=
  if s.any (fun e => e.id == newId) then s
  else s ++ [{ id := newId, name := name, vars := vars, isActive := false }]

/-- Embedding of `updateEnvironment`: `db.environments.update(id, updates)`
patches the record carrying the given primary key. -/
def updateEnvironment (id : String) (p : EnvPatch) (s : List Environment) :
    List Environment :=
  s.map (fun e => if e.id == id then applyPatch e p else e)

/-- Embedding of `deleteEnvironment`: `db.environments.delete(id)`. -/
def deleteEnvironment (id : String) (s : List Environment) : List Environment :=
  s.filter (fun e => !(e.id == id))

/-- Embedding of `setActiveEnvironment`: first
`db.environments.toCollection().modify(..)` clears `isActive` on every
record, then `db.environments.update(id, ..)` sets it on the record with
the given key. -/
def setActiveEnvironment (id : String) (s : List Environment) : List Environment :=
  (s.map (fun e => { e with isActive := false })).map
    (fun e => if e.id == id then { e with isActive := true } else e)

/-- Number of active environment records in a store state. -/
def countActive (s : List Environment) : Nat :=
  (s.filter (fun e => e.isActive)).length

/-- Invariant stated by the data model: at most one environment record has
`isActive = true` system-wide. -/
@[reducible] def atMostOneActive (s : List Environment) : Prop :=
  countActive s ≤ 1

/-- Authentication option of a request: the closed TypeScript union over
bearer / basic / api-key with its string credential fields (possibly
empty — all consumers guard on their truthiness). -/
inductive Auth where
  | bearer (token : String)
  | basic (username password : String)
  | apiKey (key value : String)
deriving DecidableEq

/-- Request configuration consumed by the executor and the generators,
mirroring its use in the services: `method`/`bodyType` are the literal
strings of the TypeScript unions, an absent body is the empty string. -/
structure RequestConfig where
  method : String
  url : String
  headers : List (String × String)
  params : List (String × String)
  body : String
  bodyType : String
  auth : Option Auth
deriving DecidableEq

/-- Response record (`ResponseData`) returned by `sendRequest`. -/
structure ResponseData where
  status : Nat
  statusText : String
  headers : List (String × String)
  body : String
  responseTime : Nat
  responseSize : Nat
deriving DecidableEq

/-- Parsed URL, modelling the platform `URL` class restricted to the
hierarchical `scheme://host/path?query` shapes the services exercise
(ports, fragments, userinfo and percent-encoding normalisation are elided;
no claim constrains them). -/
structure URLRec where
  scheme : String
  host : String
  path : String
  query : List (String × String)
deriving DecidableEq

/-- Split of a character list on a separator, mirroring
`String.prototype.split` on a single character. -/
def splitOnChar (sep : Char) (l : List Char) : List (List Char) :=
  l.foldr (fun c acc =>
    if c == sep then [] :: acc
    else
      match acc with
      | [] => [[c]]
      | g :: gs => (c :: g) :: gs) [[]]

/-- Query-string parse into key/value pairs (`searchParams`): groups split
on `&`, empty groups dropped, each group split at its first `=` with an
empty value when none is present. -/
def parseQuery (q : List Char) : List (String × String) :=
  ((splitOnChar '&' q).filter (fun g => !g.isEmpty)).map (fun g =>
    let k := g.takeWhile (fun c => c != '=')
    match g.dropWhile (fun c => c != '=') with
    | _ :: v => (String.mk k, String.mk v)
    | [] => (String.mk k, ""))

/-- Characters of the conservatively accepted hostname alphabet: ASCII
alphanumerics, hyphen, dot and underscore. -/
def isHostnameChar (c : Char) : Bool :=
  c.isAlpha || c.isDigit || c == '-' || c == '.' || c == '_'

/-- Conservative hostname validity: nonempty, drawn from the accepted
alphabet, with nonempty dot-separated labels whose final label does not
begin with a digit (a final numeric-looking label makes the platform
constructor run its IPv4 parser, whose acceptance conditions this model
does not reproduce, so such hosts are rejected wholesale). -/
def validHostname (h : List Char) : Bool :=
  !h.isEmpty && h.all isHostnameChar &&
    (let labels := splitOnChar '.' h
     labels.all (fun l => !l.isEmpty) &&
       (match labels.getLast? with
        | some l => !(l.headD 'a').isDigit
        | none => false))

/-- Decimal value of a digit run (for the port bound). -/
def portNum (p : List Char) : Nat :=
  p.foldl (fun a c => a * 10 + (c.toNat - 48)) 0

/-- Conservative host[:port] validity: a valid hostname with an optional
all-digit port no larger than 65535 (the platform constructor throws on
larger ports). -/
def validHostPort (raw : List Char) : Bool :=
  match splitOnChar ':' raw with
  | [h] => validHostname h
  | [h, p] =>
    validHostname h && !p.isEmpty && p.all (fun c => c.isDigit) &&
      p.length ≤ 5 && portNum p ≤ 65535
  | _ => false

/-- Embedding of the platform `new URL(..)` constructor, conservatively:
every string this model accepts — hierarchical `scheme://host[:port]`
shapes with an alphabetic scheme and a `validHostPort` authority — is
accepted by the constructor, while strings that would need the
constructor's richer processing (non-hierarchical forms such as
`mailto:`, userinfo, IPv4/IPv6 or internationalised or percent-encoded
hosts, the `https:foo` relaxation of special schemes) are conservatively
rejected, shrinking — never shifting — the set of inputs the totality
results cover; strings the constructor itself throws on (no scheme,
forbidden host characters such as spaces, out-of-range ports) are
rejected here as well. -/
def parseURL (s : String) : Option URLRec :=
  let cs := s.data
  let scheme := cs.takeWhile (fun c => c.isAlpha)
  if scheme.isEmpty then none
  else
    match cs.drop scheme.length with
    | ':' :: '/' :: '/' :: r =>
      let host := r.takeWhile (fun c => c != '/' && c != '?' && c != '#')
      if !validHostPort host then none
      else
        let r1 := r.drop host.length
        let path := r1.takeWhile (fun c => c != '?' && c != '#')
        let query :=
          match r1.drop path.length with
          | '?' :: q => parseQuery (q.takeWhile (fun c => c != '#'))
          | _ => []
        some { scheme := String.mk scheme, host := String.mk host,
               path := if path.isEmpty then "/" else String.mk path,
               query := query }
    | _ => none

/-- Serialisation of query pairs (`URLSearchParams.toString`;
percent-encoding elided, no claim constrains it). -/
def serializeQuery (q : List (String × String)) : String :=
  String.intercalate "&" (q.map (fun kv => kv.1 ++ "=" ++ kv.2))

/-- `url.toString()` of the model. -/
def urlToString (u : URLRec) : String :=
  u.scheme ++ "://" ++ u.host ++ u.path ++
    (if u.query.isEmpty then "" else "?" ++ serializeQuery u.query)

/-- `url.searchParams.append` over each configured query parameter. -/
def appendParams (u : URLRec) (ps : List (String × String)) : URLRec :=
  { u with query := u.query ++ ps }

/-- Property assignment `obj[k] = v` (and `Headers.set` /
`searchParams.set`): replaces the first binding in place or appends; the
case-insensitivity of real header names is elided, no claim depends on
it. -/
def objSet (l : List (String × String)) (k v : String) : List (String × String) :=
  match l with
  | [] => [(k, v)]
  | (k0, v0) :: rest => if k0 == k then (k, v) :: rest else (k0, v0) :: objSet rest k v

/-- `proxy.searchParams.set(..)` of the proxy rewrite. -/
def querySet (u : URLRec) (k v : String) : URLRec :=
  { u with query := objSet u.query k v }

/-- Base64 alphabet of `btoa`. -/
def base64Table : String :=
  "ABCDEFGHIJKLMNOPQRSTUVWXYZabcdefghijklmnopqrstuvwxyz0123456789+/"

/-- Character of the base64 alphabet at an index below 64. -/
def base64Char (n : Nat) : Char := base64Table.data.getD n 'A'

/-- Three-byte grouping of base64 with `=` padding. -/
def base64Chunks : List Nat → List Char
  | [] => []
  | [a] => [base64Char (a / 4), base64Char (a % 4 * 16), '=', '=']
  | [a, b] =>
    [base64Char (a / 4), base64Char (a % 4 * 16 + b / 16),
      base64Char (b % 16 * 4), '=']
  | a :: b :: c :: rest =>
    base64Char (a / 4) :: base64Char (a % 4 * 16 + b / 16)
      :: base64Char (b % 16 * 4 + c / 64) :: base64Char (c % 64)
      :: base64Chunks rest

/-- Latin-1 precondition of `btoa`: a code unit above U+00FF makes it
throw. -/
def btoaSafe (s : String) : Bool :=
  s.data.all (fun c => c.toNat ≤ 255)

/-- Embedding of the platform `btoa`: base64 over the code units when all
lie in the Latin-1 range, the `InvalidCharacterError` throw otherwise. -/
def btoa (s : String) : Except String String :=
  if btoaSafe s then .ok (String.mk (base64Chunks (s.data.map Char.toNat)))
  else .error "InvalidCharacterError: btoa on a character outside the Latin1 range"

/-- Auth resolution shared verbatim by the executor
(`headers.set` switch of `sendRequest`) and the fetch/python generators:
exactly one header is set when the variant's credential fields are truthy,
nothing otherwise; the basic variant's `btoa` call propagates its throw
on non-Latin-1 credentials. -/
def applyAuth (auth : Option Auth) (headers : List (String × String)) :
    Except String (List (String × String)) :=
  match auth with
  | none => .ok headers
  | some (.bearer token) =>
    if token ≠ "" then .ok (objSet headers "Authorization" ("Bearer " ++ token))
    else .ok headers
  | some (.basic username password) =>
    if username ≠ "" ∧ password ≠ "" then
      match btoa (username ++ ":" ++ password) with
      | .error e => .error e
      | .ok b => .ok (objSet headers "Authorization" ("Basic " ++ b))
    else .ok headers
  | some (.apiKey key value) =>
    if key ≠ "" ∧ value ≠ "" then .ok (objSet headers key value)
    else .ok headers

/-- `Object.entries(v)` on a parsed JSON value: throws on `null`, yields
index/element pairs on arrays, index/character pairs on strings, the field
list on objects, and nothing on the other primitives. -/
def jsEntries : JVal → Except String (List (String × JVal))
  | .null => .error "TypeError: Cannot convert undefined or null to object"
  | .obj fields => .ok fields
  | .arr elems => .ok (elems.enum.map (fun p => (toString p.1, p.2)))
  | .str s => .ok (s.data.enum.map (fun p => (toString p.1, JVal.str (String.mk [p.2]))))
  | .num _ => .ok []
  | .bool _ => .ok []

/-- Line-oriented fallback body parse shared by executor and generators:
split on newlines, destructure each line at `=`, keep pairs whose key and
value pieces are truthy, trimming both. -/
def lineFallbackPairs (body : String) : List (String × String) :=
  (splitOnChar '\n' body.data).foldr (fun line acc =>
    match splitOnChar '=' line with
    | k :: v :: _ =>
      if !k.isEmpty && !v.isEmpty then
        ((String.mk k).trim, (String.mk v).trim) :: acc
      else acc
    | _ => acc) []

/-- Dual-format body parse (`JSON.parse` + `Object.entries` inside a try
block, line fallback on any throw; entry values coerced with
`String(..)`), shared by the executor's form encoders and all three
generators. -/
def dualFormatPairs (jsonParse : String → Option JVal) (body : String) :
    List (String × String) :=
  match jsonParse body with
  | some v =>
    match jsEntries v with
    | .ok entries => entries.map (fun p => (p.1, p.2.jsToString))
    | .error _ => lineFallbackPairs body
  | none => lineFallbackPairs body

/-- Payload attached to the outgoing fetch call: a raw string, a
serialised url-encoded form, or a multipart `FormData` field list. -/
inductive BodyPayload where
  | raw (s : String)
  | urlencoded (serialized : String)
  | formData (fields : List (String × String))
deriving DecidableEq

/-- Wire-level request handed to `fetch`. -/
structure FetchRequest where
  url : String
  method : String
  headers : List (String × String)
  body : Option BodyPayload
deriving DecidableEq

/-- Proxy settings read from `localStorage`, modelled as parameters
(`enableProxy` is the comparison with the string `'true'`; a missing
`proxyUrl` key is `none`). -/
structure ProxySettings where
  enableProxy : Bool
  proxyUrl : Option String
deriving DecidableEq

/-- Outcome of the platform `fetch` call, modelled as an oracle: either a
response (status, status text, header list in arrival order, body text) or
a thrown error carrying a message. -/
inductive FetchOutcome where
  | success (status : Nat) (statusText : String)
      (headers : List (String × String)) (body : String)
  | failure (message : String)
deriving DecidableEq

/-- Body branch of `sendRequest`: only POST/PUT/PATCH with a truthy body
attach a payload; the url-encoded branch also sets `Content-Type` on the
shared headers object. -/
def encodeBody (jsonParse : String → Option JVal) (config : RequestConfig)
    (headers : List (String × String)) :
    List (String × String) × Option BodyPayload :=
  if ["POST", "PUT", "PATCH"].contains config.method ∧ config.body ≠ "" then
    if config.bodyType == "raw" then (headers, some (.raw config.body))
    else if config.bodyType == "x-www-form-urlencoded" then
      (objSet headers "Content-Type" "application/x-www-form-urlencoded",
        some (.urlencoded (serializeQuery (dualFormatPairs jsonParse config.body))))
    else if config.bodyType == "form-data" then
      (headers, some (.formData (dualFormatPairs jsonParse config.body)))
    else (headers, none)
  else (headers, none)

/-- Proxy rewrite of step 2 of `sendRequest`: when enabled and configured,
the destination becomes the `url` query parameter of the proxy endpoint
(whose own parse may throw). -/
def resolveUrl (st : ProxySettings) (u1 : URLRec) : Except String URLRec :=
  match st.enableProxy, st.proxyUrl with
  | true, some p =>
    if p ≠ "" then
      match parseURL p with
      | none => .error "Invalid URL"
      | some pu => .ok (querySet pu "url" (urlToString u1))
    else .ok u1
  | _, _ => .ok u1

/-- Everything `sendRequest` does before the `fetch` call: parse the url
(throwing on failure), append query params, apply the proxy rewrite, merge
configured headers, apply auth (whose basic-auth `btoa` call may itself
throw), encode the body.  The result is the request transmitted to the
transport. -/
def buildFetchRequest (st : ProxySettings) (jsonParse : String → Option JVal)
    (config : RequestConfig) : Except String FetchRequest :=
  match parseURL config.url with
  | none => .error "Invalid URL"
  | some u0 =>
    match resolveUrl st (appendParams u0 config.params) with
    | .error e => .error e
    | .ok u =>
      match applyAuth config.auth config.headers with
      | .error e => .error e
      | .ok h0 =>
        .ok { url := urlToString u, method := config.method,
              headers := (encodeBody jsonParse config h0).1,
              body := (encodeBody jsonParse config h0).2 }

/-- Flattening of the response `Headers` into an object: later values for
the same name overwrite earlier ones. -/
def flattenHeaders (hs : List (String × String)) : List (String × String) :=
  hs.foldl (fun acc kv => objSet acc kv.1 kv.2) []

/-- Sentinel response of the catch branch of `sendRequest`. -/
def mkNetworkError (message : String) (elapsed : Nat) : ResponseData :=
  { status := 0, statusText := "Network Error", headers := [],
    body := message, responseTime := elapsed, responseSize := 0 }

/-- Embedding of `HttpService.sendRequest`: the wall-clock delta
(`Date.now()` difference) and the transport are parameters; any throw —
from URL construction, from the basic-auth `btoa` call, or from the
transport — is caught and converted to
the sentinel response whose body is the error's message (all modelled
throws carry messages, so the `instanceof Error` fallback string does not
arise); a returned response is normalised with flattened headers and
`new Blob([body]).size`, the UTF-8 byte size of the body. -/
def sendRequest (st : ProxySettings) (jsonParse : String → Option JVal)
    (config : RequestConfig) (transport : FetchRequest → FetchOutcome)
    (elapsed : Nat) : ResponseData :=
  match buildFetchRequest st jsonParse config with
  | .error msg => mkNetworkError msg elapsed
  | .ok req =>
    match transport req with
    | .failure msg => mkNetworkError msg elapsed
    | .success status statusText hs body =>
      { status := status, statusText := statusText,
        headers := flattenHeaders hs, body := body,
        responseTime := elapsed, responseSize := body.utf8ByteSize }

/-- Single-quote character as a string, for generated snippets. -/
def squote : String := String.mk [Char.ofNat 39]

/-- Double-quote character as a string, for generated snippets. -/
def dquote : String := String.mk [Char.ofNat 34]

/-- Collection record (timestamps elided; the optional description is the
empty string when absent). -/
structure Collection where
  id : String
  name : String
  description : String
  parentId : String
  order : Nat
deriving DecidableEq

/-- Saved request record of the data layer (timestamps elided; optional
fields are `Option`s and a field left out of an object literal is
`none`). -/
structure Request where
  id : String
  name : String
  method : String
  url : String
  headers : List (String × String)
  params : List (String × String)
  body : Option String
  bodyType : String
  auth : Option Auth
  collectionId : Option String
  folderId : Option String
  order : Nat
deriving DecidableEq

/-- JavaScript `x || dflt` over a possibly-absent property, coerced to a
string: the property's string value when truthy, the default otherwise. -/
def jsOrStr (v : Option JVal) (dflt : String) : String :=
  match v with
  | some w => if w.truthy then w.jsToString else dflt
  | none => dflt

/-- JavaScript `x?.toString() || ''`. -/
def jsChainToString (v : Option JVal) : String :=
  match v with
  | none => ""
  | some .null => ""
  | some w => w.jsToString

/-- JavaScript `x || dflt` keeping the value: the value when truthy, the
default otherwise. -/
def jsTruthyOr (v : Option JVal) (dflt : JVal) : JVal :=
  match v with
  | some w => if w.truthy then w else dflt
  | none => dflt

/-- Strict equality `x === 'lit'` of a possibly-absent property with a
string literal. -/
def isStrEq (v : Option JVal) (s : String) : Bool :=
  match v with
  | some (.str t) => t == s
  | _ => false

/-- Optional index `x?.[i]`: arrays index positionally, objects look up
the decimal key, strings yield their i-th character; `null`/`undefined`
short-circuit to `undefined`. -/
def optChainIdx (v : Option JVal) (i : Nat) : Option JVal :=
  match v with
  | none => none
  | some .null => none
  | some (.arr elems) => elems[i]?
  | some (.obj fields) => (fields.find? (fun p => p.1 == toString i)).map (fun p => p.2)
  | some (.str s) => (s.data[i]?).map (fun c => JVal.str (String.mk [c]))
  | some _ => none

/-- Description extraction of `importCollection`:
`typeof d === 'string' ? d : d?.content || ''`. -/
def descOf (info : JVal) : String :=
  match info.get "description" with
  | some (.str s) => s
  | d => jsOrStr (optChainGet d "content") ""

/-- Embedding of `PostmanService.convertPostmanRequestToAppRequest` (the
generated random id is the `newId` parameter).  On plain JSON input the
calls `postmanRequest.headers.each(..)` and
`postmanRequest.url.query.each(..)` invoke a method that no JSON value
possesses (`.each` belongs to the Postman SDK's PropertyList, not to
parsed JSON), so whenever the guarding truthiness checks pass the
conversion throws a `TypeError`; on the non-throwing paths the headers and
params mappings stay empty. -/
def convertPostmanRequestToAppRequest (newId : String) (item : JVal)
    (collectionId : String) : Except String Request :=
  let postmanRequest := (item.get "request").getD .null
  if truthyOpt (postmanRequest.get "headers") then
    .error "TypeError: postmanRequest.headers.each is not a function"
  else if (match postmanRequest.get "url" with
      | some uv => uv.truthy && truthyOpt (uv.get "query")
      | none => false) then
    .error "TypeError: postmanRequest.url.query.each is not a function"
  else
    let bodyPair : String × String :=
      match postmanRequest.get "body" with
      | some bv =>
        if bv.truthy then
          if isStrEq (bv.get "mode") "raw" then
            (jsOrStr (bv.get "raw") "", "raw")
          else if isStrEq (bv.get "mode") "formdata" then
            (JVal.stringify (jsTruthyOr (bv.get "formdata") (JVal.arr [])), "form-data")
          else if isStrEq (bv.get "mode") "urlencoded" then
            (JVal.stringify (jsTruthyOr (bv.get "urlencoded") (JVal.arr [])),
              "x-www-form-urlencoded")
          else ("", "raw")
        else ("", "raw")
      | none => ("", "raw")
    let auth : Option Auth :=
      match postmanRequest.get "auth" with
      | some av =>
        if av.truthy then
          if isStrEq (av.get "type") "bearer" then
            some (.bearer
              (jsOrStr (optChainGet (optChainIdx (av.get "bearer") 0) "value") ""))
          else if isStrEq (av.get "type") "basic" then
            some (.basic
              (jsOrStr (optChainGet (optChainIdx (av.get "basic") 0) "value") "")
              (jsOrStr (optChainGet (optChainIdx (av.get "basic") 1) "value") ""))
          else if isStrEq (av.get "type") "apikey" then
            some (.apiKey
              (jsOrStr (optChainGet (optChainIdx (av.get "apikey") 0) "value") "")
              (jsOrStr (optChainGet (optChainIdx (av.get "apikey") 1) "value") ""))
          else none
        else none
      | none => none
    .ok { id := newId,
          name := jsOrStr (item.get "name") "Unnamed Request",
          method := (jsOrStr (postmanRequest.get "method") "GET").toUpper,
          url := jsChainToString (postmanRequest.get "url"),
          headers := [],
          params := [],
          body := some bodyPair.1,
          bodyType := bodyPair.2,
          auth := auth,
          collectionId := some collectionId,
          folderId := some "",
          order := 0 }

/-- Items loop of `importCollection`: only items with a truthy `request`
are converted; a throw from the converter propagates to the surrounding
try/catch. -/
def convertItems (genId : Nat → String) (collectionId : String) :
    List JVal → Nat → Except String (List Request)
  | [], _ => .ok []
  | item :: rest, i =>
    if truthyOpt (item.get "request") then
      match convertPostmanRequestToAppRequest (genId i) item collectionId with
      | .error e => .error e
      | .ok r =>
        match convertItems genId collectionId rest (i + 1) with
        | .error e => .error e
        | .ok rs => .ok (r :: rs)
    else convertItems genId collectionId rest i

/-- Try-block of `importCollection`: the structural check throws unless
the document and its `info` property are truthy; the collection record is
built (its id from `Date.now()`, the `now` parameter); items are processed
only when `item` is a truthy array. -/
def importCollectionCore (now : Nat) (genId : Nat → String) (postmanJson : JVal) :
    Except String (Collection × List Request) :=
  if !postmanJson.truthy || !truthyOpt (postmanJson.get "info") then
    .error "Invalid Postman collection format"
  else
    let info := (postmanJson.get "info").getD .null
    let collection : Collection :=
      { id := toString now,
        name := jsOrStr (info.get "name") "Imported Collection",
        description := descOf info,
        parentId := "",
        order := 0 }
    match postmanJson.get "item" with
    | some (.arr items) =>
      match convertItems genId collection.id items 0 with
      | .error e => .error e
      | .ok reqs => .ok (collection, reqs)
    | _ => .ok (collection, [])

/-- Embedding of `PostmanService.importCollection`: the catch block
converts any throw — including the structural check's own — into the one
fixed failure surfaced to the caller. -/
def importCollection (now : Nat) (genId : Nat → String) (postmanJson : JVal) :
    Except String (Collection × List Request) :=
  match importCollectionCore now genId postmanJson with
  | .ok r => .ok r
  | .error _ =>
    .error "Failed to import Postman collection. Please check the file format."

/-- `extractProtocol` of the export direction (placeholder on parse
failure). -/
def extractProtocol (url : String) : String :=
  match parseURL url with
  | some u => u.scheme
  | none => "https"

/-- `extractHost`: hostname segments (placeholder on parse failure). -/
def extractHost (url : String) : List String :=
  match parseURL url with
  | some u => u.host.splitOn "."
  | none => ["example", "com"]

/-- `extractPath`: nonempty path segments (empty on parse failure). -/
def extractPath (url : String) : List String :=
  match parseURL url with
  | some u => (u.path.splitOn "/").filter (fun seg => seg ≠ "")
  | none => []

/-- Embedding of `PostmanService.convertAppRequestToPostmanItem`: the
Postman item carries the request node with `method`, a `header` array of
key/value/type objects, the decomposed `url` node, then optionally `body`
(raw passthrough when the form body fails to parse as JSON) and `auth`. -/
def convertAppRequestToPostmanItem (jsonParse : String → Option JVal)
    (request : Request) : JVal :=
  let urlNode : JVal := .obj
    [("raw", .str request.url),
     ("protocol", .str (extractProtocol request.url)),
     ("host", .arr ((extractHost request.url).map JVal.str)),
     ("path", .arr ((extractPath request.url).map JVal.str)),
     ("query", .arr (request.params.map (fun kv =>
        JVal.obj [("key", JVal.str kv.1), ("value", JVal.str kv.2)])))]
  let base : List (String × JVal) :=
    [("method", .str request.method),
     ("header", .arr (request.headers.map (fun kv =>
        JVal.obj [("key", JVal.str kv.1), ("value", JVal.str kv.2),
          ("type", JVal.str "text")]))),
     ("url", urlNode)]
  let withBody :=
    match request.body with
    | some b =>
      if b ≠ "" then
        if request.bodyType == "raw" then
          base ++ [("body", JVal.obj [("mode", JVal.str "raw"), ("raw", JVal.str b)])]
        else if request.bodyType == "form-data" then
          match jsonParse b with
          | some v =>
            base ++ [("body", JVal.obj [("mode", JVal.str "formdata"), ("formdata", v)])]
          | none =>
            base ++ [("body", JVal.obj [("mode", JVal.str "raw"), ("raw", JVal.str b)])]
        else if request.bodyType == "x-www-form-urlencoded" then
          match jsonParse b with
          | some v =>
            base ++ [("body", JVal.obj [("mode", JVal.str "urlencoded"), ("urlencoded", v)])]
          | none =>
            base ++ [("body", JVal.obj [("mode", JVal.str "raw"), ("raw", JVal.str b)])]
        else base
      else base
    | none => base
  let withAuth :=
    match request.auth with
    | some (.bearer token) =>
      withBody ++ [("auth", JVal.obj [("type", JVal.str "bearer"),
        ("bearer", JVal.arr [JVal.obj [("key", JVal.str "token"),
          ("value", JVal.str token), ("type", JVal.str "string")]])])]
    | some (.basic username password) =>
      withBody ++ [("auth", JVal.obj [("type", JVal.str "basic"),
        ("basic", JVal.arr
          [JVal.obj [("key", JVal.str "username"), ("value", JVal.str username),
            ("type", JVal.str "string")],
           JVal.obj [("key", JVal.str "password"), ("value", JVal.str password),
            ("type", JVal.str "string")]])])]
    | some (.apiKey key value) =>
      withBody ++ [("auth", JVal.obj [("type", JVal.str "apikey"),
        ("apikey", JVal.arr
          [JVal.obj [("key", JVal.str "key"), ("value", JVal.str key),
            ("type", JVal.str "string")],
           JVal.obj [("key", JVal.str "value"), ("value", JVal.str value),
            ("type", JVal.str "string")]])])]
    | none => withBody
  JVal.obj [("name", JVal.str request.name), ("request", JVal.obj withAuth)]

/-- Documents built by `exportToPostman`, one per collection, each holding
the collection's requests (matched by `collectionId`). -/
def exportToPostmanDocs (jsonParse : String → Option JVal)
    (collections : List Collection) (requests : List Request) : List JVal :=
  collections.map (fun collection =>
    JVal.obj
      [("info", JVal.obj
        [("name", JVal.str collection.name),
         ("description", JVal.obj
           [("content", JVal.str collection.description),
            ("type", JVal.str "text/plain")]),
         ("schema",
          JVal.str "https://schema.getpostman.com/json/collection/v2.1.0/collection.json")]),
       ("item", JVal.arr ((requests.filter
          (fun r => r.collectionId == some collection.id)).map
          (convertAppRequestToPostmanItem jsonParse)))])

/-- Embedding of `PostmanService.exportToPostman`: the JSON text of the
single document when exactly one collection is exported, of the document
array otherwise. -/
def exportToPostman (jsonParse : String → Option JVal)
    (collections : List Collection) (requests : List Request) : String :=
  match exportToPostmanDocs jsonParse collections requests with
  | [d] => d.stringify
  | ds => (JVal.arr ds).stringify

/-- Whitespace class `\s` of JavaScript regexes and `trim` (restricted to
the ASCII whitespace the inputs exercise). -/
def isSpaceJS (c : Char) : Bool :=
  c == ' ' || c == '\t' || c == '\n' || c == '\r' ||
    c == Char.ofNat 12 || c == Char.ofNat 11

/-- Quote class `['"]` of the curl-import regexes. -/
def isQuoteChar (c : Char) : Bool :=
  c == Char.ofNat 39 || c == Char.ofNat 34

/-- `String.prototype.trim`. -/
def jsTrim (s : String) : String :=
  String.mk (((s.data.dropWhile isSpaceJS).reverse.dropWhile isSpaceJS).reverse)

/-- `String.prototype.startsWith`. -/
def startsWithStr (pre s : String) : Bool :=
  pre.data.isPrefixOf s.data

/-- Scan of `String.prototype.match` without anchors: the pattern is tried
at every position, leftmost match wins. -/
def scanSuffixes {α : Type} (f : List Char → Option α) : List Char → Option α
  | [] => none
  | c :: cs =>
    match f (c :: cs) with
    | some r => some r
    | none => scanSuffixes f cs

/-- Attempt of the regex `-X\s+(\w+)\s+['"]([^'"]+)['"]` at one position
(all quantifier chains here are resolved by maximal munch, the adjacent
character classes being disjoint). -/
def matchXUrlAt : List Char → Option (String × String)
  | '-' :: 'X' :: r =>
    if (r.takeWhile isSpaceJS).isEmpty then none
    else
      let r1 := r.dropWhile isSpaceJS
      let meth := r1.takeWhile isWordChar
      if meth.isEmpty then none
      else
        let r2 := r1.dropWhile isWordChar
        if (r2.takeWhile isSpaceJS).isEmpty then none
        else
          match r2.dropWhile isSpaceJS with
          | q :: r3 =>
            if isQuoteChar q then
              let tok := r3.takeWhile (fun c => !isQuoteChar c)
              if tok.isEmpty then none
              else
                match r3.dropWhile (fun c => !isQuoteChar c) with
                | _ :: _ => some (String.mk meth, String.mk tok)
                | [] => none
            else none
          | [] => none
  | _ => none

/-- Attempt of the regex `['"]([^'"]+)['"]` at one position. -/
def matchQuotedAt : List Char → Option String
  | q :: r =>
    if isQuoteChar q then
      let tok := r.takeWhile (fun c => !isQuoteChar c)
      if tok.isEmpty then none
      else
        match r.dropWhile (fun c => !isQuoteChar c) with
        | _ :: _ => some (String.mk tok)
        | [] => none
    else none
  | [] => none

/-- Attempt of the regex `-H\s+['"]([^:]+):\s*([^'"]+)['"]` at one
position.  The only backtracking point is `\s*` against the greedy
`([^'"]+)`: the captured value is the text between the colon and the next
quote with its leading whitespace consumed by `\s*` — except when that
text is all whitespace, where `\s*` gives exactly one character back. -/
def matchHeaderAt : List Char → Option (String × String)
  | '-' :: 'H' :: r =>
    if (r.takeWhile isSpaceJS).isEmpty then none
    else
      match r.dropWhile isSpaceJS with
      | q :: r1 =>
        if isQuoteChar q then
          let key := r1.takeWhile (fun c => c != ':')
          if key.isEmpty then none
          else
            match r1.dropWhile (fun c => c != ':') with
            | _ :: r2 =>
              let t := r2.takeWhile (fun c => !isQuoteChar c)
              if t.isEmpty then none
              else
                match r2.dropWhile (fun c => !isQuoteChar c) with
                | _ :: _ =>
                  let v := t.dropWhile isSpaceJS
                  if v.isEmpty then
                    some (String.mk key, String.mk (t.drop (t.length - 1)))
                  else some (String.mk key, String.mk v)
                | [] => none
            | [] => none
        else none
      | [] => none
  | _ => none

/-- Attempt of the regex `-d\s+['"]([^'"]+)['"]` at one position. -/
def matchBodyAt : List Char → Option String
  | '-' :: 'd' :: r =>
    if (r.takeWhile isSpaceJS).isEmpty then none
    else
      match r.dropWhile isSpaceJS with
      | q :: r1 =>
        if isQuoteChar q then
          let tok := r1.takeWhile (fun c => !isQuoteChar c)
          if tok.isEmpty then none
          else
            match r1.dropWhile (fun c => !isQuoteChar c) with
            | _ :: _ => some (String.mk tok)
            | [] => none
        else none
      | [] => none
  | _ => none

/-- In-progress request of the curl-text loop. -/
structure CurlPartial where
  method : String
  url : Option String
  headers : List (String × String)
  params : List (String × String)
  body : Option String
deriving DecidableEq

/-- Push of a completed in-progress request.  The object literal in the
source names id, name (the url), method (defaulted through `|| 'GET'`),
url, headers, params, bodyType, order and the timestamps — but not
`body`: the `-d` payload stored in the in-progress record is dropped, so
the pushed record's body is absent. -/
def pushCurlRequest (pr : CurlPartial) (u : String) (idx : Nat) : Request :=
  { id := "imported-" ++ toString idx,
    name := u,
    method := if pr.method ≠ "" then pr.method else "GET",
    url := u,
    headers := pr.headers,
    params := pr.params,
    body := none,
    bodyType := "raw",
    auth := none,
    collectionId := none,
    folderId := none,
    order := idx }

/-- Line loop of `generateCurlImport`: a trimmed line starting `curl `
flushes any in-progress request that captured a url and starts a new one
(method+url from the `-X` pattern, else the first quoted token as url);
`-H ` lines add one header, `-d ` lines store the body; other lines are
ignored; the final in-progress request is flushed at the end. -/
def curlLinesLoop : List String → Option CurlPartial → Nat → List Request
  | [], cur, idx =>
    (match cur with
    | some pr =>
      match pr.url with
      | some u => [pushCurlRequest pr u idx]
      | none => []
    | none => [])
  | line :: rest, cur, idx =>
    let t := jsTrim line
    if startsWithStr "curl " t then
      let flushed : List Request × Nat :=
        match cur with
        | some pr =>
          match pr.url with
          | some u => ([pushCurlRequest pr u idx], idx + 1)
          | none => ([], idx)
        | none => ([], idx)
      let base : CurlPartial := ⟨"GET", none, [], [], none⟩
      let cur' :=
        match scanSuffixes matchXUrlAt t.data with
        | some (m, u) => { base with method := m, url := some u }
        | none =>
          match scanSuffixes matchQuotedAt t.data with
          | some u => { base with url := some u }
          | none => base
      flushed.1 ++ curlLinesLoop rest (some cur') flushed.2
    else if startsWithStr "-H " t then
      match cur, scanSuffixes matchHeaderAt t.data with
      | some pr, some (k, v) =>
        curlLinesLoop rest (some { pr with headers := objSet pr.headers k v }) idx
      | _, _ => curlLinesLoop rest cur idx
    else if startsWithStr "-d " t then
      match cur, scanSuffixes matchBodyAt t.data with
      | some pr, some b => curlLinesLoop rest (some { pr with body := some b }) idx
      | _, _ => curlLinesLoop rest cur idx
    else curlLinesLoop rest cur idx

/-- Embedding of `ExportImportService.generateCurlImport`: split the text
into lines and run the line loop from an empty state. -/
def generateCurlImport (text : String) : List Request :=
  curlLinesLoop ((splitOnChar '\n' text.data).map String.mk) none 0

theorem interpAux_nil (vars : List (String × String)) : interpAux vars [] = [] := by
  simp [interpAux]

theorem interpAux_cons_match {c : Char} {cs name rest : List Char}
    (vars : List (String × String)) (h : matchVar (c :: cs) = some (name, rest)) :
    interpAux vars (c :: cs) = substFor vars name ++ interpAux vars rest := by
  rw [interpAux]
  split
  · rename_i name' rest' h'
    rw [h] at h'
    injection h' with h''
    injection h'' with h1 h2
    subst h1; subst h2; rfl
  · rename_i h'
    rw [h] at h'
    simp at h'

theorem interpAux_cons_nomatch {c : Char} {cs : List Char}
    (vars : List (String × String)) (h : matchVar (c :: cs) = none) :
    interpAux vars (c :: cs) = c :: interpAux vars cs := by
  rw [interpAux]
  split
  · rename_i name' rest' h'
    rw [h] at h'
    exact absurd h' (by simp)
  · rfl

theorem matchVar_at_occurrence {name B : List Char} (hne : name ≠ [])
    (hw : name.all isWordChar) :
    matchVar ('{' :: '{' :: (name ++ '}' :: '}' :: B)) = some (name, B) := by
  have hall : ∀ a ∈ name, isWordChar a := by
    simpa [List.all_eq_true] using hw
  dsimp only [matchVar]
  rw [if_pos (And.intro rfl rfl)]
  rw [List.takeWhile_append_of_pos hall, List.dropWhile_append_of_pos hall]
  rw [List.takeWhile_cons_of_neg (by decide), List.dropWhile_cons_of_neg (by decide)]
  rw [List.append_nil]
  dsimp only
  rw [if_pos (And.intro rfl rfl), if_neg (by simpa [List.isEmpty_iff] using hne)]

theorem matchVar_append {A T : List Char} (hA : A ≠ []) :
    matchVar (A ++ '{' :: '{' :: T)
      = (matchVar A).map (fun p => (p.1, p.2 ++ '{' :: '{' :: T)) := by
  rcases A with _ | ⟨c1, A1⟩
  · exact absurd rfl hA
  rcases A1 with _ | ⟨c2, A2⟩
  · have h1 : matchVar [c1] = none := rfl
    rw [h1]
    show matchVar (c1 :: '{' :: '{' :: T) = none
    dsimp only [matchVar]
    by_cases hb : c1 = '{' ∧ ('{' : Char) = '{'
    · rw [if_pos hb]
      rw [List.takeWhile_cons_of_neg (by decide), List.dropWhile_cons_of_neg (by decide)]
      rcases T with _ | ⟨d2, T2⟩
      · rfl
      · dsimp only
        rw [if_neg (by rintro ⟨h, -⟩; exact absurd h (by decide))]
    · rw [if_neg hb]
  · show matchVar (c1 :: c2 :: (A2 ++ '{' :: '{' :: T))
      = (matchVar (c1 :: c2 :: A2)).map (fun p => (p.1, p.2 ++ '{' :: '{' :: T))
    dsimp only [matchVar]
    by_cases hb : c1 = '{' ∧ c2 = '{'
    · rw [if_pos hb, if_pos hb]
      rcases hd : A2.dropWhile isWordChar with _ | ⟨d, r⟩
      · have hta : A2.takeWhile isWordChar = A2 := by
          have hsplit := List.takeWhile_append_dropWhile (p := isWordChar) (l := A2)
          rw [hd, List.append_nil] at hsplit
          exact hsplit
        have hall : ∀ a ∈ A2, isWordChar a := fun a ha =>
          List.mem_takeWhile_imp (l := A2) (by rw [hta]; exact ha)
        rw [List.takeWhile_append_of_pos hall, List.dropWhile_append_of_pos hall]
        rw [List.takeWhile_cons_of_neg (by decide), List.dropWhile_cons_of_neg (by decide)]
        dsimp only
        rw [if_neg (by rintro ⟨h, -⟩; exact absurd h (by decide))]
        rfl
      · have hlen : ¬ (A2.takeWhile isWordChar).length = A2.length := by
          have hsplit := List.takeWhile_append_dropWhile (p := isWordChar) (l := A2)
          have hlen2 : (A2.takeWhile isWordChar).length + (A2.dropWhile isWordChar).length
              = A2.length := by
            rw [← List.length_append, hsplit]
          rw [hd] at hlen2
          simp only [List.length_cons] at hlen2
          omega
        rw [List.takeWhile_append, if_neg hlen, List.dropWhile_append, hd]
        rw [if_neg (by simp)]
        rcases r with _ | ⟨d2, r2⟩
        · simp only [List.cons_append, List.nil_append]
          rw [if_neg (by rintro ⟨-, h⟩; exact absurd h (by decide))]
          rfl
        · simp only [List.cons_append]
          by_cases hc : d = '}' ∧ d2 = '}'
          · rw [if_pos hc, if_pos hc]
            by_cases he : (A2.takeWhile isWordChar).isEmpty
            · rw [if_pos he, if_pos he]
              rfl
            · rw [if_neg he, if_neg he]
              rfl
          · rw [if_neg hc, if_neg hc]
            rfl
    · rw [if_neg hb, if_neg hb]
      rfl

theorem interpAux_split (vars : List (String × String)) (name B : List Char)
    (hne : name ≠ []) (hw : name.all isWordChar) :
    ∀ A : List Char,
      interpAux vars (A ++ '{' :: '{' :: (name ++ '}' :: '}' :: B))
        = interpAux vars A ++ substFor vars name ++ interpAux vars B := by
  have main : ∀ (n : Nat) (A : List Char), A.length = n →
      interpAux vars (A ++ '{' :: '{' :: (name ++ '}' :: '}' :: B))
        = interpAux vars A ++ substFor vars name ++ interpAux vars B := by
    intro n
    induction n using Nat.strong_induction_on with
    | _ n ih =>
      intro A hn
      rcases A with _ | ⟨c, A1⟩
      · rw [List.nil_append, interpAux_nil, List.nil_append]
        rw [interpAux_cons_match vars (matchVar_at_occurrence hne hw)]
      · have hmv := matchVar_append (A := c :: A1)
          (T := name ++ '}' :: '}' :: B) (by simp)
        rcases hA1 : matchVar (c :: A1) with _ | ⟨nm, r⟩
        · rw [hA1] at hmv
          simp only [Option.map_none'] at hmv
          rw [List.cons_append] at hmv ⊢
          rw [interpAux_cons_nomatch vars hmv]
          have hlt : A1.length < n := by rw [← hn]; simp
          rw [ih A1.length hlt A1 rfl]
          rw [interpAux_cons_nomatch vars hA1]
          simp [List.cons_append]
        · rw [hA1] at hmv
          simp only [Option.map_some'] at hmv
          rw [List.cons_append] at hmv ⊢
          rw [interpAux_cons_match vars hmv]
          have hrlt : r.length < (c :: A1).length := matchVar_rest_lt hA1
          have hlt : r.length < n := by rw [← hn]; exact hrlt
          rw [ih r.length hlt r rfl]
          rw [interpAux_cons_match vars hA1]
          simp [List.append_assoc]
  intro A
  exact main A.length A rfl

theorem interpFuel_eq (vars : List (String × String)) :
    ∀ (fuel : Nat) (l : List Char), l.length ≤ fuel →
      interpFuel vars fuel l = interpAux vars l := by
  intro fuel
  induction fuel with
  | zero =>
    intro l hl
    rcases l with _ | ⟨c, cs⟩
    · rw [interpAux_nil]; rfl
    · simp at hl
  | succ n ihn =>
    intro l hl
    rcases l with _ | ⟨c, cs⟩
    · rw [interpAux_nil]; rfl
    · rcases hm : matchVar (c :: cs) with _ | ⟨nm, r⟩
      · rw [interpAux_cons_nomatch vars hm]
        dsimp only [interpFuel]
        simp only [hm]
        have hcs : cs.length ≤ n := by
          simp only [List.length_cons] at hl
          omega
        rw [ihn cs hcs]
      · rw [interpAux_cons_match vars hm]
        dsimp only [interpFuel]
        simp only [hm]
        have hr : r.length ≤ n := by
          have hlt := matchVar_rest_lt hm
          simp only [List.length_cons] at hlt hl
          omega
        rw [ihn r hr]

theorem interpolateVariables_eval (text : String) (vars : List (String × String)) :
    interpolateVariables text vars
      = String.mk (interpFuel vars text.data.length text.data) := by
  unfold interpolateVariables
  rw [interpFuel_eq vars _ _ (Nat.le_refl _)]

theorem string_mk_data (s : String) : String.mk s.data = s := rfl

theorem string_mk_append (a b : List Char) :
    String.mk (a ++ b) = String.mk a ++ String.mk b := rfl

theorem string_data_ne_nil {s : String} (h : s ≠ "") : s.data ≠ [] := by
  intro hd
  apply h
  cases s with
  | mk d =>
    cases hd
    rfl

theorem substFor_data (vars : List (String × String)) (name : String) :
    substFor vars name.data = (substValue vars name).data := by
  unfold substFor substValue
  rw [string_mk_data]
  rcases h : lookupVar vars name with _ | v
  · simp only [h]
    rfl
  · simp only [h]
    by_cases he : v.isEmpty
    · rw [if_pos he, if_pos he]
      rfl
    · rw [if_neg he, if_neg he]

/-- Splitting equation for the interpolator: an occurrence of a variable
pattern anywhere in the template is substituted independently of its
context, the prefix and suffix being interpolated on their own and the
substituted value not being re-scanned.  Shared helper behind the
occurrence-level claims. -/
theorem interpolate_split (pre name post : String) (vars : List (String × String))
    (hne : name ≠ "") (hw : name.data.all isWordChar) :
    interpolateVariables (pre ++ ("\x7b\x7b" ++ name ++ "\x7d\x7d") ++ post) vars
      = interpolateVariables pre vars ++ substValue vars name
        ++ interpolateVariables post vars := by
  unfold interpolateVariables
  have hOCC : (pre ++ ("\x7b\x7b" ++ name ++ "\x7d\x7d") ++ post).data
      = pre.data ++ '{' :: '{' :: (name.data ++ '}' :: '}' :: post.data) := by
    simp only [String.data_append, List.append_assoc]
    rfl
  rw [hOCC, interpAux_split vars name.data post.data (string_data_ne_nil hne) hw pre.data]
  rw [string_mk_append, string_mk_append, substFor_data, string_mk_data]

/-- Claim C3, counterexample: for the template `\x7b\x7ba\x7d\x7d` and the
mapping sending `a` to the empty string, the occurrence is NOT replaced by
the mapped value `""`; the implementation leaves it verbatim, refuting the
claim that every occurrence whose name is a key of the mapping is replaced
by the mapped value. -/
theorem interpolate_empty_value_not_replaced :
    interpolateVariables "\x7b\x7ba\x7d\x7d" [("a", "")] = "\x7b\x7ba\x7d\x7d" ∧
    interpolateVariables "\x7b\x7ba\x7d\x7d" [("a", "")] ≠ "" := by
  rw [interpolateVariables_eval]
  exact ⟨by decide, by decide⟩

/-- Claim C3 (amended): for an occurrence of `\x7b\x7bx\x7d\x7d` whose
name is either bound in the mapping or not one of the `Object.prototype`
member names, `interpolateVariables` leaves the occurrence unchanged
including the braces when `x` is absent from the mapping or mapped to the
empty string, replaces it by the mapped value when that value is nonempty,
and does not re-scan the substituted value: the occurrence is substituted
independently of its context (`substValue`), while prefix and suffix are
interpolated on their own and the substituted value reappears verbatim.
For an unbound name inherited from `Object.prototype` (`toString`,
`constructor`, `__proto__`, ...) the program instead substitutes the
engine-specific string coercion of the inherited built-in, so those
occurrences are excluded by hypothesis. -/
theorem interpolateVariables_occurrence (pre name post : String)
    (vars : List (String × String)) (hne : name ≠ "")
    (hw : name.data.all isWordChar)
    (hp : protoKeys.contains name = false ∨ (lookupVar vars name).isSome = true) :
    interpolateVariables (pre ++ ("\x7b\x7b" ++ name ++ "\x7d\x7d") ++ post) vars
      = interpolateVariables pre vars ++ substValue vars name
        ++ interpolateVariables post vars :=
  interpolate_split pre name post vars hne hw

theorem interpolateVariables_occurrence_witness :
    (("a" : String) ≠ "" ∧ ("a" : String).data.all isWordChar = true ∧
      protoKeys.contains "a" = false) ∧
    interpolateVariables ("u-" ++ ("\x7b\x7b" ++ "a" ++ "\x7d\x7d") ++ "-v") [("a", "X")]
      = interpolateVariables "u-" [("a", "X")] ++ substValue [("a", "X")] "a"
        ++ interpolateVariables "-v" [("a", "X")] ∧
    interpolateVariables ("u-" ++ ("\x7b\x7b" ++ "a" ++ "\x7d\x7d") ++ "-v") [("a", "X")]
      = "u-X-v" :=
  ⟨⟨by decide, by decide, by decide⟩,
    interpolateVariables_occurrence "u-" "a" "-v" [("a", "X")] (by decide) (by decide)
      (Or.inl (by decide)),
    by rw [interpolateVariables_eval]; decide⟩

/-- Claim C10: an occurrence of `\x7b\x7bx\x7d\x7d` whose name is mapped to
the empty string is treated as if the name were absent: the occurrence is
left verbatim in the output, braces included, rather than being replaced by
the empty string. -/
theorem interpolate_empty_value_left_verbatim (pre name post : String)
    (vars : List (String × String)) (hne : name ≠ "")
    (hw : name.data.all isWordChar) (hv : lookupVar vars name = some "") :
    interpolateVariables (pre ++ ("\x7b\x7b" ++ name ++ "\x7d\x7d") ++ post) vars
      = interpolateVariables pre vars ++ ("\x7b\x7b" ++ name ++ "\x7d\x7d")
        ++ interpolateVariables post vars := by
  rw [interpolate_split pre name post vars hne hw]
  have hs : substValue vars name = "\x7b\x7b" ++ name ++ "\x7d\x7d" := by
    simp only [substValue, hv]
    rw [if_pos (by decide)]
  rw [hs]

theorem interpolate_empty_value_left_verbatim_witness :
    (("a" : String) ≠ "" ∧ ("a" : String).data.all isWordChar = true ∧
      lookupVar [("a", "")] "a" = some "") ∧
    interpolateVariables ("u-" ++ ("\x7b\x7b" ++ "a" ++ "\x7d\x7d") ++ "-v") [("a", "")]
      = interpolateVariables "u-" [("a", "")] ++ ("\x7b\x7b" ++ "a" ++ "\x7d\x7d")
        ++ interpolateVariables "-v" [("a", "")] ∧
    interpolateVariables ("u-" ++ ("\x7b\x7b" ++ "a" ++ "\x7d\x7d") ++ "-v") [("a", "")]
      = "u-\x7b\x7ba\x7d\x7d-v" :=
  ⟨⟨by decide, by decide, by decide⟩,
    interpolate_empty_value_left_verbatim "u-" "a" "-v" [("a", "")]
      (by decide) (by decide) (by decide),
    by rw [interpolateVariables_eval]; decide⟩

theorem countActive_map_le (f : Environment → Environment) (s : List Environment)
    (hf : ∀ e, (f e).isActive = true → e.isActive = true) :
    countActive (s.map f) ≤ countActive s := by
  induction s with
  | nil => simp [countActive]
  | cons e t ih =>
    cases hfe : (f e).isActive
    · cases he : e.isActive
      · simp only [countActive, List.map_cons, List.filter_cons, hfe, he] at ih ⊢
        simpa using ih
      · simp only [countActive, List.map_cons, List.filter_cons, hfe, he] at ih ⊢
        simp only [Bool.false_eq_true, if_false, if_true, List.length_cons]
        omega
    · have he := hf e hfe
      simp only [countActive, List.map_cons, List.filter_cons, hfe, he] at ih ⊢
      simpa using ih

theorem countActive_sublist {s t : List Environment} (h : s.Sublist t) :
    countActive s ≤ countActive t := by
  unfold countActive
  exact (h.filter (fun e => e.isActive)).length_le

theorem countActive_matching_id_le_one (i : String) :
    ∀ s : List Environment, (s.map Environment.id).Nodup →
      (s.filter (fun e => e.id == i)).length ≤ 1 := by
  intro s
  induction s with
  | nil => simp
  | cons e t ih =>
    intro hnd
    rw [List.map_cons, List.nodup_cons] at hnd
    obtain ⟨hni, hnd'⟩ := hnd
    cases hei : (e.id == i)
    · simpa [List.filter_cons, hei] using ih hnd'
    · have heq : e.id = i := by simpa using hei
      have hzero : t.filter (fun x => x.id == i) = [] := by
        rw [List.filter_eq_nil_iff]
        intro x hx hxe
        apply hni
        rw [← heq] at hxe
        have : x.id = e.id := by simpa using hxe
        exact this ▸ List.mem_map_of_mem Environment.id hx
      simp [List.filter_cons, hei, hzero]

theorem countActive_setActive (i : String) (s : List Environment) :
    countActive (setActiveEnvironment i s)
      = (s.filter (fun e => e.id == i)).length := by
  unfold setActiveEnvironment countActive
  rw [List.map_map]
  induction s with
  | nil => rfl
  | cons e t iht =>
    simp only [List.map_cons, List.filter_cons, Function.comp]
    cases hei : (e.id == i)
    · simpa [hei] using iht
    · simpa [hei] using iht

/-- Claim C8, counterexample: starting from a state satisfying the
invariant (one active record, one inactive), `updateEnvironment` applied
with an update object whose `isActive` field is `true` leaves two active
records, violating the invariant. -/
theorem environment_update_breaks_single_active :
    atMostOneActive
      [⟨"1", "E1", [], true⟩, ⟨"2", "E2", [], false⟩] ∧
    ¬ atMostOneActive
        (updateEnvironment "2" ⟨none, none, some true⟩
          [⟨"1", "E1", [], true⟩, ⟨"2", "E2", [], false⟩]) := by
  constructor
  · decide
  · decide

/-- Claim C8 (amended): starting from a state with at most one active
environment, `createEnvironment`, `deleteEnvironment` and every
`updateEnvironment` whose update object does not set `isActive` to `true`
preserve the invariant, and `setActiveEnvironment` establishes it from any
state whose records carry distinct primary keys; an `updateEnvironment`
carrying `isActive: true` can break the invariant. -/
theorem environment_ops_single_active :
    (∀ (s : List Environment) (i n : String) (v : List (String × String)),
        atMostOneActive s → atMostOneActive (createEnvironment i n v s)) ∧
    (∀ (s : List Environment) (i : String) (p : EnvPatch),
        atMostOneActive s → p.isActive ≠ some true →
        atMostOneActive (updateEnvironment i p s)) ∧
    (∀ (s : List Environment) (i : String),
        atMostOneActive s → atMostOneActive (deleteEnvironment i s)) ∧
    (∀ (s : List Environment) (i : String),
        (s.map Environment.id).Nodup → atMostOneActive (setActiveEnvironment i s)) := by
  refine ⟨?_, ?_, ?_, ?_⟩
  · intro s i n v hs
    unfold createEnvironment
    by_cases hdup : s.any (fun e => e.id == i)
    · rw [if_pos hdup]; exact hs
    · rw [if_neg hdup]
      unfold atMostOneActive countActive at hs ⊢
      rw [List.filter_append]
      simpa using hs
  · intro s i p hs hp
    refine le_trans (countActive_map_le _ s ?_) hs
    intro e he
    by_cases hei : (e.id == i) = true
    · rw [if_pos hei] at he
      unfold applyPatch at he
      rcases hpa : p.isActive with _ | b
      · rw [hpa] at he; simpa using he
      · rcases b with _ | _
        · rw [hpa] at he; simpa using he
        · exact absurd hpa hp
    · rw [if_neg hei] at he; exact he
  · intro s i hs
    exact le_trans (countActive_sublist (List.filter_sublist s)) hs
  · intro s i hnd
    unfold atMostOneActive
    rw [countActive_setActive i s]
    exact countActive_matching_id_le_one i s hnd

theorem environment_ops_single_active_witness :
    atMostOneActive
      (setActiveEnvironment "2" [⟨"1", "E1", [], true⟩, ⟨"2", "E2", [], false⟩]) ∧
    atMostOneActive
      (updateEnvironment "1" ⟨some "N", none, some false⟩ [⟨"1", "E1", [], true⟩]) :=
  ⟨environment_ops_single_active.2.2.2 _ "2" (by decide),
    environment_ops_single_active.2.1 _ "1" _ (by decide) (by decide)⟩

/-- Claim C4: `sendRequest` never raises — it is a total function into
response records — and every failing run (a URL-construction or
auth-encoding throw, or a transport throw) is converted into a record
with status 0, status text
`Network Error`, an empty headers mapping, the error's message as body,
and the elapsed-milliseconds parameter (a natural number, hence at least
zero) as response time. -/
theorem sendRequest_failure_shape (st : ProxySettings)
    (jsonParse : String → Option JVal) (config : RequestConfig)
    (transport : FetchRequest → FetchOutcome) (elapsed : Nat) (msg : String)
    (h : buildFetchRequest st jsonParse config = .error msg ∨
      ∃ req, buildFetchRequest st jsonParse config = .ok req ∧
        transport req = .failure msg) :
    sendRequest st jsonParse config transport elapsed = mkNetworkError msg elapsed ∧
    (sendRequest st jsonParse config transport elapsed).status = 0 ∧
    (sendRequest st jsonParse config transport elapsed).statusText = "Network Error" ∧
    (sendRequest st jsonParse config transport elapsed).headers = [] ∧
    (sendRequest st jsonParse config transport elapsed).body = msg ∧
    (sendRequest st jsonParse config transport elapsed).responseTime = elapsed := by
  have hmain : sendRequest st jsonParse config transport elapsed
      = mkNetworkError msg elapsed := by
    rcases h with he | ⟨req, hok, hfail⟩
    · unfold sendRequest
      rw [he]
    · unfold sendRequest
      simp only [hok, hfail]
  refine ⟨hmain, ?_, ?_, ?_, ?_, ?_⟩ <;> rw [hmain] <;> rfl

theorem sendRequest_failure_shape_witness :
    buildFetchRequest ⟨false, none⟩ (fun _ => none)
        ⟨"GET", "", [], [], "", "raw", none⟩ = Except.error "Invalid URL" ∧
    sendRequest ⟨false, none⟩ (fun _ => none) ⟨"GET", "", [], [], "", "raw", none⟩
        (fun _ => FetchOutcome.failure "x") 5 = mkNetworkError "Invalid URL" 5 :=
  ⟨rfl,
    (sendRequest_failure_shape ⟨false, none⟩ (fun _ => none)
      ⟨"GET", "", [], [], "", "raw", none⟩ (fun _ => FetchOutcome.failure "x") 5
      "Invalid URL" (Or.inl rfl)).1⟩

/-- Claim C7, counterexample: on a transport failure whose error message is
the nonempty string `Failed to fetch`, the returned record carries that
message as body but a hard-coded `responseSize` of 0, so `responseSize`
does not equal the UTF-8 byte length of the body. -/
theorem responseSize_mismatch_on_failure :
    (sendRequest ⟨false, none⟩ (fun _ => none)
        ⟨"GET", "https://x.test/a", [], [], "", "raw", none⟩
        (fun _ => FetchOutcome.failure "Failed to fetch") 3).responseSize
      ≠ ((sendRequest ⟨false, none⟩ (fun _ => none)
        ⟨"GET", "https://x.test/a", [], [], "", "raw", none⟩
        (fun _ => FetchOutcome.failure "Failed to fetch") 3).body).utf8ByteSize := by
  decide

/-- Claim C7 (amended): for responses the transport returns,
`responseSize` equals the UTF-8 byte length of the body (in particular a
zero-length body yields 0, not an error); on transport failure
`responseSize` is hard-coded to 0 regardless of the body text. -/
theorem responseSize_utf8_length (st : ProxySettings)
    (jsonParse : String → Option JVal) (config : RequestConfig)
    (transport : FetchRequest → FetchOutcome) (elapsed : Nat) :
    ((∃ req status statusText hs body,
        buildFetchRequest st jsonParse config = .ok req ∧
        transport req = .success status statusText hs body) →
      (sendRequest st jsonParse config transport elapsed).responseSize
        = ((sendRequest st jsonParse config transport elapsed).body).utf8ByteSize) ∧
    ((buildFetchRequest st jsonParse config = .error "Invalid URL" ∨
        ∃ req msg, buildFetchRequest st jsonParse config = .ok req ∧
          transport req = .failure msg) →
      (sendRequest st jsonParse config transport elapsed).responseSize = 0) := by
  constructor
  · rintro ⟨req, status, statusText, hs, body, hok, hsucc⟩
    unfold sendRequest
    simp only [hok, hsucc]
  · rintro (he | ⟨req, msg, hok, hfail⟩)
    · unfold sendRequest
      rw [he]
      rfl
    · unfold sendRequest
      simp only [hok, hfail]
      rfl

theorem responseSize_utf8_length_witness :
    (sendRequest ⟨false, none⟩ (fun _ => none)
        ⟨"GET", "https://x.test/a", [], [], "", "raw", none⟩
        (fun _ => FetchOutcome.success 200 "OK" [] "abc") 3).responseSize
      = ((sendRequest ⟨false, none⟩ (fun _ => none)
        ⟨"GET", "https://x.test/a", [], [], "", "raw", none⟩
        (fun _ => FetchOutcome.success 200 "OK" [] "abc") 3).body).utf8ByteSize ∧
    (sendRequest ⟨false, none⟩ (fun _ => none)
        ⟨"GET", "https://x.test/a", [], [], "", "raw", none⟩
        (fun _ => FetchOutcome.success 200 "OK" [] "abc") 3).responseSize = 3 :=
  ⟨(responseSize_utf8_length ⟨false, none⟩ (fun _ => none)
      ⟨"GET", "https://x.test/a", [], [], "", "raw", none⟩
      (fun _ => FetchOutcome.success 200 "OK" [] "abc") 3).1
      ⟨⟨"https://x.test/a", "GET", [], none⟩,
        200, "OK", [], "abc", rfl, rfl⟩,
    by decide⟩

/-- Claim C9: for configurations whose method is GET, HEAD, DELETE or
OPTIONS, the request `sendRequest` hands to the transport carries no
payload, whatever the body and body-encoding of the configuration. -/
theorem method_body_suppression (st : ProxySettings)
    (jsonParse : String → Option JVal) (config : RequestConfig)
    (req : FetchRequest)
    (hm : config.method = "GET" ∨ config.method = "HEAD" ∨
      config.method = "DELETE" ∨ config.method = "OPTIONS")
    (hok : buildFetchRequest st jsonParse config = .ok req) :
    req.body = none := by
  have hnotin : ¬ (["POST", "PUT", "PATCH"].contains config.method ∧
      config.body ≠ "") := by
    rintro ⟨hc, -⟩
    rcases hm with h | h | h | h <;> rw [h] at hc <;> simp [List.contains] at hc
  unfold buildFetchRequest at hok
  rcases hp : parseURL config.url with _ | u0 <;> simp only [hp] at hok
  · exact absurd hok (by simp)
  · rcases hr : resolveUrl st (appendParams u0 config.params) with e | u <;>
      simp only [hr] at hok
    · exact absurd hok (by simp)
    · rcases ha : applyAuth config.auth config.headers with e | h0 <;>
        simp only [ha] at hok
      · exact absurd hok (by simp)
      · rw [Except.ok.injEq] at hok
        rw [← hok]
        show (encodeBody jsonParse config h0).2 = none
        unfold encodeBody
        rw [if_neg hnotin]

theorem method_body_suppression_witness :
    buildFetchRequest ⟨false, none⟩ (fun _ => none)
        ⟨"GET", "https://x.test/a", [], [], "zz", "raw", none⟩
      = Except.ok ⟨"https://x.test/a", "GET", [], none⟩ ∧
    (⟨"https://x.test/a", "GET", [], none⟩ : FetchRequest).body = none :=
  ⟨rfl,
    method_body_suppression ⟨false, none⟩ (fun _ => none)
      ⟨"GET", "https://x.test/a", [], [], "zz", "raw", none⟩
      ⟨"https://x.test/a", "GET", [], none⟩ (Or.inl rfl) rfl⟩

/-- Claim C1: evaluating the round trip on a one-collection, one-request
store (a plain GET request with no headers, params, body or auth — the
simplest possible input): re-importing the exported document throws
the failure message instead of recovering the request.  The importer calls
`.each` on the exported `url.query` array (a method plain JSON arrays do
not have), reads `headers` where the exporter writes `header`, and takes
`url` as the url-node object's `toString()`; the first of these already
aborts the import. -/
theorem postman_roundtrip_fails :
    importCollection 0 (fun n => "r" ++ toString n)
        ((exportToPostmanDocs (fun _ => none)
          [⟨"c1", "C", "", "", 0⟩]
          [⟨"r1", "R", "GET", "https://x.test/a", [], [], some "", "raw", none,
            some "c1", none, 0⟩]).headD JVal.null)
      = Except.error "Failed to import Postman collection. Please check the file format." :=
  rfl

/-- Claim C6: evaluation of `importCollection` around its contract.  A
document carrying an `info` object but whose item list contains a request
with a `url.query` node makes the import throw (the `.each` TypeError is
caught and surfaced as the format failure), refuting "for every document
that has an info object it succeeds"; a document without `info` fails as
claimed; a document with `info` and no `item` (or a non-list `item`)
succeeds with an empty request list as claimed. -/
theorem importCollection_contract_eval :
    importCollection 0 (fun n => "r" ++ toString n)
        (JVal.obj [("info", JVal.obj [("name", JVal.str "N")]),
          ("item", JVal.arr [JVal.obj [("request",
            JVal.obj [("url", JVal.obj [("query", JVal.arr [])])])]])])
      = Except.error "Failed to import Postman collection. Please check the file format." ∧
    importCollection 0 (fun n => "r" ++ toString n)
        (JVal.obj [("item", JVal.arr [])])
      = Except.error "Failed to import Postman collection. Please check the file format." ∧
    importCollection 0 (fun n => "r" ++ toString n)
        (JVal.obj [("info", JVal.obj [("name", JVal.str "N")])])
      = Except.ok (⟨"0", "N", "", "", 0⟩, []) ∧
    importCollection 0 (fun n => "r" ++ toString n)
        (JVal.obj [("info", JVal.obj [("name", JVal.str "N")]),
          ("item", JVal.str "x")])
      = Except.ok (⟨"0", "N", "", "", 0⟩, []) :=
  ⟨rfl, rfl, rfl, rfl⟩

/-- Claim C5: evaluation of the curl-text importer on the claim's input.
Exactly one request is produced, with method POST, url
`https://x.test/a` and the header mapping `X-Test: 1` as the claim
states — but its body is absent (`none`), not `hello`: the parser stores
the `-d` payload in the in-progress record and then omits the field from
the object it pushes. -/
theorem generateCurlImport_eval :
    generateCurlImport ("curl -X POST " ++ squote ++ "https://x.test/a" ++ squote
        ++ "\n-H " ++ squote ++ "X-Test: 1" ++ squote
        ++ "\n-d " ++ squote ++ "hello" ++ squote)
      = [{ id := "imported-0", name := "https://x.test/a", method := "POST",
           url := "https://x.test/a", headers := [("X-Test", "1")], params := [],
           body := none, bodyType := "raw", auth := none, collectionId := none,
           folderId := none, order := 0 }] :=
  rfl
